import Mathlib

/-!
Shallow embedding of `src/Crisp.py` (the Crisp-Ai repository).

Bytes are modelled as `List Nat` (each element a byte value `< 256`), Python
floats used for wall-clock time are modelled as `ℚ`, and Python exceptions
are modelled with `Except String`.  `struct.pack`/`struct.unpack` are embedded
with their exact range/length checks (pack raises on out-of-range values,
unpack demands a buffer of exactly the format size).  Python byte-string
slicing (including negative indices and clamping) is embedded by `pySlice`.
Python dicts are insertion-ordered association lists (`dictSet`/`dget`), and
`sorted(..., reverse=True)` is the stable descending insertion sort
`sortDesc`.  The library primitives `hashlib.sha256` and `crc32c.crc32` are
implemented bit-faithfully below.
-/

set_option maxRecDepth 100000

deriving instance DecidableEq for Except

namespace Crisp

/-- Big-endian byte encoding of `n % 256^w` in exactly `w` bytes. -/
def packBE : Nat → Nat → List Nat
  | 0, _ => []
  | w + 1, n => packBE w (n / 256) ++ [n % 256]

/-- Big-endian value of a byte list (inverse of `packBE` on in-range values). -/
def beVal (bs : List Nat) : Nat := bs.foldl (fun a b => a * 256 + b) 0

/-- struct.pack of an unsigned big-endian integer field: raises struct.error
when the value does not fit in `w` bytes, exactly like Python's struct. -/
def packU (w n : Nat) : Except String (List Nat) :=
  if n < 256 ^ w then .ok (packBE w n) else .error "struct.error: argument out of range"

/-- struct.pack of an `Ns` fixed-length bytes field: truncates or zero-pads
to exactly `w` bytes (Python's `s` format never raises on length). -/
def packS (w : Nat) (bs : List Nat) : List Nat :=
  bs.take w ++ List.replicate (w - bs.length) 0

/-- Normalize a Python slice index against a sequence of length `n`:
negative indices count from the end, and everything is clamped to `[0, n]`. -/
def normIdx (n : Nat) (i : Int) : Nat :=
  if i < 0 then ((n : Int) + i).toNat else min i.toNat n

/-- Python byte-string slice `l[a:b]` (step 1), with Python's negative-index
and clamping semantics. -/
def pySlice (l : List Nat) (a b : Int) : List Nat :=
  let s := normIdx l.length a
  let e := normIdx l.length b
  (l.drop s).take (e - s)

/-- UTF-8 bytes of a string; all strings appearing in the source are ASCII,
for which UTF-8 is the code-point value of each character. -/
def strBytes (s : String) : List Nat := s.data.map Char.toNat

/-- Python dict update `d[k] = v`: replaces the value in place if the key is
present (keeping its insertion position), otherwise appends. -/
def dictSet {α β : Type} [DecidableEq α] : List (α × β) → α → β → List (α × β)
  | [], k, v => [(k, v)]
  | (a, b) :: t, k, v => if a = k then (a, v) :: t else (a, b) :: dictSet t k v

/-- Python dict lookup `d.get(k)`. -/
def dget {α β : Type} [DecidableEq α] : List (α × β) → α → Option β
  | [], _ => none
  | (a, b) :: t, k => if a = k then some b else dget t k

/-- Insert `x` into a descending-sorted list, after all strictly-greater keys:
together with `sortDesc` this is Python's stable `sorted(..., reverse=True)`. -/
def insertDesc {α β : Type} [LinearOrder β] (key : α → β) (x : α) : List α → List α
  | [] => [x]
  | y :: ys => if key x < key y then y :: insertDesc key x ys else x :: y :: ys

/-- Stable descending sort by key (Python `sorted(l, key=key, reverse=True)`:
elements with equal keys keep their original relative order). -/
def sortDesc {α β : Type} [LinearOrder β] (key : α → β) : List α → List α
  | [] => []
  | x :: xs => insertDesc key x (sortDesc key xs)

/-- Milliseconds value `int(time.time() * 1000)` for a rational wall-clock
time in seconds (Python's `int()` truncates toward zero, matching `Int.div`
on the exact rational `now * 1000 = num * 1000 / den`). -/
def msOf (now : ℚ) : Nat := ((now.num * 1000).tdiv (now.den : Int)).toNat

/-- Whether an `Except` is an error (a propagating Python exception). -/
def isErr {ε α : Type} : Except ε α → Bool
  | .error _ => true
  | .ok _ => false

/-! ### CRC32C (Castagnoli), the `crc32c.crc32` library primitive.
Reflected algorithm: polynomial 0x82F63B78, init and final xor 0xFFFFFFFF. -/

/-- One bit-step loop of the reflected CRC32C byte update, `k` iterations. -/
def crcShift : Nat → Nat → Nat
  | 0, c => c
  | k + 1, c => crcShift k (if c % 2 = 1 then (c / 2) ^^^ 0x82F63B78 else c / 2)

/-- `crc32c.crc32(data)` over a byte list. -/
def crc32 (data : List Nat) : Nat :=
  (data.foldl (fun c b => crcShift 8 (c ^^^ b)) 0xFFFFFFFF) ^^^ 0xFFFFFFFF

/-! ### SHA-256, the `hashlib.sha256` library primitive. -/

/-- Right rotation of a 32-bit word. -/
def rotr32 (n x : Nat) : Nat := ((x >>> n) ||| (x <<< (32 - n))) % 4294967296

/-- SHA-256 big sigma 0. -/
def bsig0 (x : Nat) : Nat := rotr32 2 x ^^^ rotr32 13 x ^^^ rotr32 22 x

/-- SHA-256 big sigma 1. -/
def bsig1 (x : Nat) : Nat := rotr32 6 x ^^^ rotr32 11 x ^^^ rotr32 25 x

/-- SHA-256 small sigma 0. -/
def ssig0 (x : Nat) : Nat := rotr32 7 x ^^^ rotr32 18 x ^^^ (x >>> 3)

/-- SHA-256 small sigma 1. -/
def ssig1 (x : Nat) : Nat := rotr32 17 x ^^^ rotr32 19 x ^^^ (x >>> 10)

/-- SHA-256 choice function. -/
def chF (e f g : Nat) : Nat := (e &&& f) ^^^ ((e ^^^ 4294967295) &&& g)

/-- SHA-256 majority function. -/
def majF (a b c : Nat) : Nat := (a &&& b) ^^^ (a &&& c) ^^^ (b &&& c)

/-- SHA-256 round constants (the standard 64 words, written in decimal). -/
def sha256K : List Nat :=
  [1116352408, 1899447441, 3049323471, 3921009573, 961987163, 1508970993,
   2453635748, 2870763221, 3624381080, 310598401, 607225278, 1426881987,
   1925078388, 2162078206, 2614888103, 3248222580, 3835390401, 4022224774,
   264347078, 604807628, 770255983, 1249150122, 1555081692, 1996064986,
   2554220882, 2821834349, 2952996808, 3210313671, 3336571891, 3584528711,
   113926993, 338241895, 666307205, 773529912, 1294757372, 1396182291,
   1695183700, 1986661051, 2177026350, 2456956037, 2730485921, 2820302411,
   3259730800, 3345764771, 3516065817, 3600352804, 4094571909, 275423344,
   430227734, 506948616, 659060556, 883997877, 958139571, 1322822218,
   1537002063, 1747873779, 1955562222, 2024104815, 2227730452, 2361852424,
   2428436474, 2756734187, 3204031479, 3329325298]

/-- SHA-256 initial hash state (the standard 8 words, written in decimal). -/
def sha256H0 : List Nat :=
  [1779033703, 3144134277, 1013904242, 2773480762,
   1359893119, 2600822924, 528734635, 1541459225]

/-- Big-endian 32-bit words of a byte list (complete 4-byte groups). -/
def toWords32 : List Nat → List Nat
  | b0 :: b1 :: b2 :: b3 :: r => (((b0 * 256 + b1) * 256 + b2) * 256 + b3) :: toWords32 r
  | _ => []

/-- Split a word list into consecutive 16-word blocks (a padded SHA-256
message is always a whole number of blocks; a short remainder is dropped). -/
def toBlocks16 : List Nat → List (List Nat)
  | w0 :: w1 :: w2 :: w3 :: w4 :: w5 :: w6 :: w7 ::
    w8 :: w9 :: w10 :: w11 :: w12 :: w13 :: w14 :: w15 :: rest =>
      [w0, w1, w2, w3, w4, w5, w6, w7, w8, w9, w10, w11, w12, w13, w14, w15]
        :: toBlocks16 rest
  | _ => []

/-- Extend the message schedule by `k` words; `w` holds the schedule built so
far in reverse (head is the most recent word). -/
def extendW : Nat → List Nat → List Nat
  | 0, w => w
  | k + 1, w =>
    extendW k (((ssig1 (w.getD 1 0) + w.getD 6 0 + ssig0 (w.getD 14 0) + w.getD 15 0)
                 % 4294967296) :: w)

/-- One SHA-256 compression round on state `[a,b,c,d,e,f,g,h]` with the
already-combined constant-plus-schedule word `kw`. -/
def sha256round (st : List Nat) (kw : Nat) : List Nat :=
  match st with
  | [a, b, c, d, e, f, g, h] =>
    let t1 := (h + bsig1 e + chF e f g + kw) % 4294967296
    let t2 := (bsig0 a + majF a b c) % 4294967296
    [(t1 + t2) % 4294967296, a, b, c, (d + t1) % 4294967296, e, f, g]
  | other => other

/-- SHA-256 compression of one 16-word block into the hash state. -/
def sha256block (h : List Nat) (blockWords : List Nat) : List Nat :=
  let w := (extendW 48 blockWords.reverse).reverse
  let kw := (List.zip sha256K w).map (fun p => (p.1 + p.2) % 4294967296)
  let st := kw.foldl sha256round h
  (List.zip h st).map (fun p => (p.1 + p.2) % 4294967296)

/-- `hashlib.sha256(msg).digest()` as 32 bytes. -/
def sha256 (msg : List Nat) : List Nat :=
  let L := msg.length
  let padded := msg ++ [128] ++ List.replicate ((119 - L % 64) % 64) 0 ++ packBE 8 (8 * L)
  let blocks := toBlocks16 (toWords32 padded)
  let hh := blocks.foldl sha256block sha256H0
  hh.foldr (fun w acc => packBE 4 w ++ acc) []

/-! ### CrispPacket (packet codec) -/

/-- Configuration flags (`CrispConfig.__init__`). -/
structure CrispConfig where
  use_vector_clocks : Bool := true
  use_quorums : Bool := true
  use_hierarchical_gossip : Bool := true
  compression : String := "huffman"
deriving DecidableEq

/-- A packet object.  `timestamp` is the wall-clock time (seconds, as ℚ) at
construction; `sequence` is already resolved (the `sequence or time-ms`
defaulting of `__init__` lives in `mkPacket`). -/
structure CrispPacket where
  type_id : Nat
  sequence : Nat
  payload : List Nat
  checksum_type : Nat
  checksum : List Nat
  timestamp : ℚ
  retry_count : Nat
deriving DecidableEq

/-- `CrispPacket._calculate_checksum`: CRC32C packed big-endian when
`checksum_type == 0x01`, else the first 4 bytes of SHA-256. -/
def calculate_checksum (checksum_type : Nat) (payload : List Nat) : List Nat :=
  if checksum_type = 1 then packBE 4 (crc32 payload) else (sha256 payload).take 4

/-- `CrispPacket.__init__(type_id, payload, sequence, checksum_type)` at
wall-clock time `now`.  `sequence or int(time.time() * 1000)` makes any falsy
sequence (None, and also 0) default to the millisecond clock. -/
def mkPacket (now : ℚ) (type_id : Nat) (payload : List Nat) (sequence : Option Nat := none)
    (checksum_type : Nat := 1) : CrispPacket :=
  { type_id := type_id
    sequence := match sequence with
      | none => msOf now
      | some s => if s = 0 then msOf now else s
    payload := payload
    checksum_type := checksum_type
    checksum := calculate_checksum checksum_type payload
    timestamp := now
    retry_count := 0 }

/-- `CrispPacket.encode`: `struct.pack("!BHI4s", type_id, len(payload) + 12,
sequence, checksum) + payload`.  The `!BHI4s` format is 11 bytes; pack raises
struct.error when a field value is out of range. -/
def encode (p : CrispPacket) : Except String (List Nat) := do
  let b ← packU 1 p.type_id
  let h ← packU 2 (p.payload.length + 12)
  let i ← packU 4 p.sequence
  .ok (b ++ h ++ i ++ packS 4 p.checksum ++ p.payload)

/-- `CrispPacket.decode(data)` at wall-clock time `now`.  Raises
`ValueError("Packet too short")` below 12 bytes; then unpacks
`"!BHI4s"` (an 11-byte format) from `data[:HEADER_SIZE]` (12 bytes), which
raises struct.error whenever reached, since unpack demands an exact-size
buffer.  The parse/checksum branch below the guard is therefore dead code;
it is embedded anyway, faithfully: the freshly constructed packet's stored
checksum is by construction `_calculate_checksum()` of its payload, so the
comparison could never raise `"Checksum mismatch"`. -/
def decode (data : List Nat) (now : ℚ) : Except String CrispPacket :=
  if data.length < 12 then .error "Packet too short"
  else
    let buf := data.take 12
    if buf.length = 11 then
      let type_id := buf.getD 0 0
      let length := beVal (pySlice buf 1 3)
      let sequence := beVal (pySlice buf 3 7)
      let payload := pySlice data 12 (length : Int)
      let packet := mkPacket now type_id payload (some sequence) 1
      if packet.checksum ≠ calculate_checksum packet.checksum_type packet.payload then
        .error "Checksum mismatch"
      else .ok packet
    else .error "unpack requires a buffer of 11 bytes"

/-- `CrispPacket.is_expired` at wall-clock time `now`:
`time.time() - self.timestamp > 5`. -/
def is_expired (p : CrispPacket) (now : ℚ) : Bool := now - p.timestamp > 5

/-- `CrispPacket.create_error_response`: packs
`"!QBHH"`(correlation_id, original_type, error_code, len(msg)) + msg and wraps
it in a type-0xE0 packet with a fresh (time-derived) sequence. -/
def create_error_response (now : ℚ) (correlation_id original_type error_code : Nat)
    (error_message : String) : Except String CrispPacket := do
  let msg_bytes := strBytes error_message
  let q ← packU 8 correlation_id
  let b ← packU 1 original_type
  let c ← packU 2 error_code
  let l ← packU 2 msg_bytes.length
  .ok (mkPacket now 0xE0 (q ++ b ++ c ++ l ++ msg_bytes))

/-! ### MerkleTree -/

/-- Merkle tree state: the ordered list of (already hashed) leaves. -/
structure MerkleTree where
  leaves : List (List Nat)
deriving DecidableEq

/-- `MerkleTree.add_leaf(entry)`: appends `sha256(entry)`. -/
def add_leaf (t : MerkleTree) (entry : List Nat) : MerkleTree :=
  { leaves := t.leaves ++ [sha256 entry] }

/-- One level of `get_root`'s reduction loop: `leaves[i:i+2]` pairs are joined
and hashed; a trailing odd node is hashed alone (its singleton pair). -/
def hashPairs : List (List Nat) → List (List Nat)
  | [] => []
  | [x] => [sha256 x]
  | x :: y :: rest => sha256 (x ++ y) :: hashPairs rest

/-- The `while len(leaves) > 1` reduction loop of `get_root`, written with an
explicit fuel so that it is structurally recursive: each iteration at least
halves the node count, so `fuel = initial length` always suffices to reach a
single node. -/
def reduceLoop : Nat → List (List Nat) → List (List Nat)
  | 0, ls => ls
  | fuel + 1, ls => if ls.length > 1 then reduceLoop fuel (hashPairs ls) else ls

/-- `MerkleTree.get_root`: all-zero 32 bytes for an empty tree, else the
pairwise bottom-up reduction of the current leaves down to a single node. -/
def get_root (t : MerkleTree) : List Nat :=
  match t.leaves with
  | [] => List.replicate 32 0
  | l => (reduceLoop l.length l).headD (List.replicate 32 0)

/-! ### SKCManager -/

/-- A value stored in the heterogeneous `self.storage` dict: encoded packet
bytes, an integer vote, or a boolean beacon flag. -/
inductive StoreVal where
  | bytes (bs : List Nat)
  | num (n : Nat)
  | boolean (b : Bool)
deriving DecidableEq

/-- Python truthiness of a storage value (`if stored:`): empty bytes, 0 and
False are falsy. -/
def StoreVal.truthy : StoreVal → Bool
  | .bytes bs => !bs.isEmpty
  | .num n => n ≠ 0
  | .boolean b => b

/-- The integer a storage value stands for in a dict-key membership test
(`vote in votes`); Python treats True as 1 and False as 0, and bytes never
equal an int key. -/
def StoreVal.asKey : StoreVal → Option Nat
  | .bytes _ => none
  | .num n => some n
  | .boolean b => some (if b then 1 else 0)

/-- `LRUCache` state. -/
structure LRUCache where
  cache : List (String × List Nat)
  order : List String
  max_size : Nat
deriving DecidableEq

/-- `LRUCache.put(key, value)`. -/
def LRUCache.put (c : LRUCache) (key : String) (value : List Nat) : LRUCache :=
  if (dget c.cache key).isSome then
    { c with cache := dictSet c.cache key value, order := c.order.erase key ++ [key] }
  else if c.cache.length ≥ c.max_size then
    let victim := c.order.headD ""
    { c with cache := dictSet (c.cache.filter (fun p => p.1 ≠ victim)) key value,
             order := c.order.tail ++ [key] }
  else
    { c with cache := dictSet c.cache key value, order := c.order ++ [key] }

/-- `SKCManager` mutable state (everything `__init__` sets up except the key
pair, which is modelled by the `sigOf` signing primitive passed to the
operations that use it).  `vector_clock` is `None` when vector clocks are
disabled, modelled as an unused empty list behind the config flag. -/
structure SKCManager where
  node_id : String
  config : CrispConfig
  skc_version : Nat
  vector_clock : List (String × Nat)
  reputation : List (String × ℚ)
  quorum_threshold : Nat
  merkle_tree : MerkleTree
  storage : List (String × StoreVal)
  lru_cache : LRUCache
  access_counts : List (String × Nat)
  b_tree : List (Nat × List Nat)
  partition_map : List (Nat × String)
  neighbors : List String
  cluster_leaders : Option (List String)
  sync_interval : ℚ
deriving DecidableEq

/-- `SKCManager.__init__(node_id, config)`. -/
def initSKC (node_id : String) (config : CrispConfig) : SKCManager :=
  { node_id := node_id
    config := config
    skc_version := 1
    vector_clock := if config.use_vector_clocks then [(node_id, 0)] else []
    reputation := [(node_id, 1)]
    quorum_threshold := if config.use_quorums then 3 else 1
    merkle_tree := ⟨[]⟩
    storage := []
    lru_cache := ⟨[], [], 1000⟩
    access_counts := []
    b_tree := []
    partition_map := []
    neighbors := ["node2", "node3"]
    cluster_leaders := if config.use_hierarchical_gossip then some ["leader1"] else none
    sync_interval := 1 }

/-- `SKCManager.huffman_encode(data)`: `data[:16]`. -/
def huffman_encode (data : List Nat) : List Nat := data.take 16

/-- `SKCManager.sign_packet(packet)` at time `now`, with the ECDSA signing
primitive `private_key.sign` modelled by `sigOf` (its output is the DER
signature byte string).  Appends `struct.pack("!H", 1) + signature[:32]` to
the payload and builds a fresh packet (fresh time-derived sequence, checksum
recomputed over the extended payload). -/
def sign_packet (sigOf : List Nat → List Nat) (now : ℚ) (packet : CrispPacket) : CrispPacket :=
  mkPacket now packet.type_id (packet.payload ++ packBE 2 1 ++ (sigOf packet.payload).take 32)

/-- `SKCManager.verify_signature(packet, public_keys)`.  Public keys are
abstract identifiers of type `κ`; `public_key.verify(sig, payload, ECDSA)` is
modelled by `verifyFn pk sig payload` (`true` = no exception raised, the
`except: continue` swallows every failure).  Reads the signature count from
the LAST two payload bytes, slices 32-byte candidate signatures inward from
the tail, and accepts iff the number of successful verifications reaches the
quorum threshold. -/
def verify_signature {κ : Type} (st : SKCManager) (verifyFn : κ → List Nat → List Nat → Bool)
    (packet : CrispPacket) (public_keys : List κ) : Except String Bool :=
  if packet.payload.length < 2 then .error "unpack requires a buffer of 2 bytes"
  else
    let sig_count := beVal (pySlice packet.payload (-2) (packet.payload.length : Int))
    let sig_len : Int := 32
    let signatures := (List.range sig_count).map
      (fun i : Nat =>
        pySlice packet.payload (-2 - (i : Int) * sig_len - sig_len) (-2 - (i : Int) * sig_len))
    let payload := pySlice packet.payload 0 (-2 - sig_count * sig_len)
    let verified := (List.zip signatures public_keys).foldl
      (fun n sp => if verifyFn sp.2 sp.1 payload then n + 1 else n) 0
    .ok (verified ≥ st.quorum_threshold)

/-- `SKCManager.trim_vector_clock(max_nodes)`: when over the bound, keep the
`max_nodes` highest-counter entries, in stable descending counter order
(Python's stable `sorted(items, key=counter, reverse=True)[:max_nodes]`
rebuilt into a dict). -/
def trim_vector_clock (st : SKCManager) (max_nodes : Nat) : SKCManager :=
  if st.config.use_vector_clocks ∧ st.vector_clock.length > max_nodes then
    { st with vector_clock := (sortDesc (fun p => p.2) st.vector_clock).take max_nodes }
  else st

/-- `SKCManager.encode_vector_clock()`: empty bytes when disabled; otherwise
trims to 10 entries (mutating the clock) and serializes
`!I count` followed by `!32sI` (padded node id, counter) per entry. -/
def encode_vector_clock (st : SKCManager) : SKCManager × Except String (List Nat) :=
  if st.config.use_vector_clocks then
    let st' := trim_vector_clock st 10
    let body := st'.vector_clock.foldl
      (fun acc kv => do
        let a ← acc
        let v ← packU 4 kv.2
        Except.ok (a ++ packS 32 (strBytes kv.1) ++ v))
      (Except.ok [])
    (st', do
      let c ← packU 4 st'.vector_clock.length
      let b ← body
      Except.ok (c ++ b))
  else (st, .ok [])

/-- `SKCManager.collect_votes(packets)`: start every contending sequence at
weight 0, add each neighbor's reputation weight to the sequence its stored
vote names, and return the packets in stable descending tally order. -/
def collect_votes (st : SKCManager) (packets : List CrispPacket) : List CrispPacket :=
  let votes := packets.foldl (fun d p => dictSet d p.sequence (0 : ℚ)) []
  let votes := st.neighbors.foldl
    (fun d node =>
      match dget st.storage ("vote:" ++ node) with
      | some v =>
        match v.asKey with
        | some k =>
          if (dget d k).isSome then
            dictSet d k ((dget d k).getD 0 + (dget st.reputation node).getD 0)
          else d
        | none => d
      | none => d)
    votes
  sortDesc (fun p => (dget votes p.sequence).getD 0) packets

/-- `SKCManager.resolve_semantic_conflict(incoming, stored)`: returns the
top-voted packet.  The `else` branch (empty vote list) is unreachable, since
`collect_votes` returns a permutation of its two-element input; were it ever
reached it would raise a NameError (`incoming_packet` is undefined there in
the source), which the embedding models as an error. -/
def resolve_semantic_conflict (st : SKCManager) (incoming stored : CrispPacket) :
    Except String CrispPacket :=
  match collect_votes st [incoming, stored] with
  | v :: _ => .ok v
  | [] => .error "NameError: name incoming_packet is not defined"

/-- `SKCManager.resolve_deadlock(packet)` at time `now`: an expired packet
(age strictly over 5 seconds) is recorded under `deadlock:{sequence}` in
storage (its encoding — which can itself raise struct.error) and answered
with a `DeadlockTimeout` (0x000B) error response; otherwise `None`. -/
def resolve_deadlock (st : SKCManager) (packet : CrispPacket) (now : ℚ) :
    SKCManager × Except String (Option CrispPacket) :=
  if is_expired packet now then
    match encode packet with
    | .error e => (st, .error e)
    | .ok bs =>
      let st' := { st with
        storage := dictSet st.storage ("deadlock:" ++ toString packet.sequence) (.bytes bs) }
      match create_error_response now packet.sequence packet.type_id 0x000B "Deadlock timeout" with
      | .error e => (st', .error e)
      | .ok resp => (st', .ok (some resp))
  else (st, .ok none)

/-- `SKCManager.check_conflict(incoming_packet)` at time `now`.  Parses the
`!IBHQQ16s` sync header (39 bytes exactly; a struct.error is answered with a
MalformedPacket error response), looks up the stored record for
`(node_id, version)`, decodes it on a hash mismatch path, and otherwise falls
through to the deadlock check.  The `except IndexError` around the stored
hash slice is dead (slicing cannot raise IndexError) and is not modelled. -/
def check_conflict (st : SKCManager) (incoming_packet : CrispPacket) (now : ℚ) :
    SKCManager × Except String (Option CrispPacket) :=
  if !st.config.use_vector_clocks then (st, .ok none)
  else
    let hdr := pySlice incoming_packet.payload 0 39
    if hdr.length ≠ 39 then
      (st, (create_error_response now incoming_packet.sequence incoming_packet.type_id 0x0001
              "Invalid packet format").map some)
    else
      let version := beVal (pySlice hdr 0 4)
      let hash_val := pySlice hdr 23 39
      match dget st.storage ("skc_sync:" ++ st.node_id ++ ":" ++ toString version) with
      | some sv =>
        if sv.truthy then
          match sv with
          | .bytes bs =>
            match decode bs now with
            | .error e => (st, .error e)
            | .ok stored_packet =>
              let stored_hash := pySlice stored_packet.payload 23 39
              if stored_hash ≠ hash_val then
                (st, (resolve_semantic_conflict st incoming_packet stored_packet).map some)
              else resolve_deadlock st incoming_packet now
          | _ =>
            -- a non-bytes stored value would raise inside CrispPacket.decode
            (st, .error "TypeError: decode expects bytes")
        else resolve_deadlock st incoming_packet now
      | none => resolve_deadlock st incoming_packet now

/-- One iteration of `gossip_sync`'s storage loop: bind the state so far,
encode the packet (a struct.error propagates), and store the bytes under
`skc_sync:{node}:{version}`. -/
def storeStep (packet : CrispPacket) (ver : Nat) (acc : Except String SKCManager)
    (node : String) : Except String SKCManager := do
  let s ← acc
  let bs ← encode packet
  Except.ok { s with
    storage := dictSet s.storage ("skc_sync:" ++ node ++ ":" ++ toString ver) (.bytes bs) }

/-- The tail of `gossip_sync` after the storage loop: a storage-loop error
propagates with the pre-loop state, otherwise the result is
`check_conflict(packet) or packet` (a packet object is always truthy). -/
def gossip_finish (st : SKCManager) (packet : CrispPacket) (now : ℚ)
    (stored : Except String SKCManager) : SKCManager × Except String CrispPacket :=
  match stored with
  | .error e => (st, .error e)
  | .ok st' =>
    match check_conflict st' packet now with
    | (st'', .error e) => (st'', .error e)
    | (st'', .ok (some r)) => (st'', .ok r)
    | (st'', .ok none) => (st'', .ok packet)

/-- `SKCManager.gossip_sync(packet, cluster_leaders)` at time `now`: computes
the queue priority (a struct.error from the 5-byte unpack propagates), stores
the encoded packet under `skc_sync:{node}:{version}` for every target
(`packet.encode()` is evaluated inside the loop and its struct.error
propagates), then returns `check_conflict(packet) or packet`. -/
def gossip_sync (st : SKCManager) (packet : CrispPacket) (cluster_leaders : Option (List String))
    (now : ℚ) : SKCManager × Except String CrispPacket :=
  let prio : Except String Nat :=
    if packet.type_id = 0x6D then .ok 3
    else
      let hd := pySlice packet.payload 0 5
      if hd.length = 5 then .ok (hd.getD 4 0) else .error "unpack requires a buffer of 5 bytes"
  match prio with
  | .error e => (st, .error e)
  | .ok _ =>
    let targets :=
      match cluster_leaders with
      | some ls => if st.config.use_hierarchical_gossip ∧ ls ≠ [] then ls else st.neighbors
      | none => st.neighbors
    gossip_finish st packet now (targets.foldl (storeStep packet st.skc_version) (Except.ok st))

/-- The tail of `sync_skc` after the state mutations: encode the (trimmed)
vector clock, pack the `!IBHQQ16sH` sync payload with the huffman-compressed
Merkle root, sign the resulting 0x60 packet and hand it to `gossip_sync`
(struct.errors propagate with the mutated state). -/
def sync_finish (st : SKCManager) (sigOf : List Nat → List Nat) (prio : Nat)
    (id_range_start id_range_end : Nat) (now : ℚ) : SKCManager × Except String CrispPacket :=
  match encode_vector_clock st with
  | (st, .error e) => (st, .error e)
  | (st, .ok clock_bytes) =>
    let payload : Except String (List Nat) := do
      let v ← packU 4 st.skc_version
      let pr ← packU 1 prio
      let c ← packU 2 1
      let s ← packU 8 id_range_start
      let e ← packU 8 id_range_end
      let l ← packU 2 clock_bytes.length
      .ok (v ++ pr ++ c ++ s ++ e ++ packS 16 (huffman_encode (get_root st.merkle_tree)) ++ l
            ++ clock_bytes)
    match payload with
    | .error e => (st, .error e)
    | .ok payload =>
      let packet := mkPacket now 0x60 payload
      let signed_packet := sign_packet sigOf now packet
      gossip_sync st signed_packet none now

/-- `SKCManager.sync_skc(id_range_start, id_range_end, entries, priority)` at
time `now`, with signing primitive `sigOf`: bumps the local vector-clock
entry, appends the entries to the Merkle tree and B-tree, counts the range
access (promoting hot ranges into the LRU cache at priority 0x02), then
builds, signs and gossips the sync packet (`sync_finish`). -/
def sync_skc (st : SKCManager) (sigOf : List Nat → List Nat)
    (id_range_start id_range_end : Nat) (entries : List Nat) (priority : Option Nat)
    (now : ℚ) : SKCManager × Except String CrispPacket :=
  let st := if st.config.use_vector_clocks then
      { st with
        vector_clock :=
          dictSet st.vector_clock st.node_id ((dget st.vector_clock st.node_id).getD 0 + 1) }
    else st
  let st := { st with merkle_tree := add_leaf st.merkle_tree entries }
  let st := { st with b_tree := dictSet st.b_tree id_range_start entries }
  let key := toString id_range_start ++ ":" ++ toString id_range_end
  let st := { st with
    access_counts := dictSet st.access_counts key ((dget st.access_counts key).getD 0 + 1) }
  let prio := if (dget st.access_counts key).getD 0 > 10 then 0x02 else priority.getD 0
  let st := if prio = 0x02 then { st with lru_cache := st.lru_cache.put key entries } else st
  sync_finish st sigOf prio id_range_start id_range_end now

/-! ### Concrete instances used by individual claims -/

/-- A deterministic stand-in for the ECDSA signing primitive, used to
instantiate `sigOf` on concrete inputs (a real P-256 DER signature is a
70-ish-byte string; only its length and opacity matter to the claims). -/
def demoSig : List Nat → List Nat := fun _ => List.replicate 70 7

/-- A fresh manager for node1 with the default configuration. -/
def demoManager : SKCManager := initSKC "node1" {}

/-- C1 scenario: the incoming packet of a digest conflict (39-byte sync-style
payload of 1s, sequence 111). -/
def c1_incoming : CrispPacket := mkPacket 0 0x60 (List.replicate 39 1) (some 111)

/-- C1 scenario: the competing stored packet (payload of 2s, so its digest
bytes 23..39 differ from the incoming one; sequence 222). -/
def c1_stored : CrispPacket := mkPacket 0 0x60 (List.replicate 39 2) (some 222)

/-- C3 witness packet: type 0x60, payload "ab", caller-supplied sequence 1. -/
def c3_packet : CrispPacket := mkPacket 0 0x60 [97, 98] (some 1)

/-- C5 scenario packet: type 0x60, payload "ab", sequence 1 (all header
fields in range, so `encode` succeeds). -/
def c5_packet : CrispPacket := mkPacket 0 0x60 [97, 98] (some 1)

/-- C5 scenario: the 13-byte encoding of `c5_packet` (11-byte header plus the
2 payload bytes). -/
def c5_encoded : List Nat := (encode c5_packet).toOption.getD []

/-- C5 scenario: the encoding with one payload byte flipped (index 12 lies in
the payload portion under both the actual 11-byte header and the spec's
12-byte header). -/
def c5_flipped : List Nat := c5_encoded.set 12 ((c5_encoded.getD 12 0) ^^^ 1)

/-- C8 scenario: a three-leaf tree over the entries [0], [1], [2]. -/
def c8_tree : MerkleTree := add_leaf (add_leaf (add_leaf ⟨[]⟩ [0]) [1]) [2]

/-- The arguments of one local `sync_skc` call (C9 talks about arbitrary
sequences of such calls). -/
structure SyncCall where
  id_range_start : Nat
  id_range_end : Nat
  entries : List Nat
  priority : Option Nat
  now : ℚ

/-- The state transition of one `sync_skc` call (mutations persist even when
the call ends in a propagating exception, as in Python). -/
def syncStep (sigOf : List Nat → List Nat) (st : SKCManager) (c : SyncCall) : SKCManager :=
  (sync_skc st sigOf c.id_range_start c.id_range_end c.entries c.priority c.now).1

/-- A demonstration sync call for the C9 witness. -/
def c9_call : SyncCall := ⟨100, 200, [0x45], none, 5⟩

/-! ### Helper lemmas -/

/-- `packBE` always produces exactly `w` bytes. -/
theorem packBE_length (w : Nat) : ∀ n, (packBE w n).length = w := by
  induction w with
  | zero => intro n; simp [packBE]
  | succ w ih => intro n; simp [packBE, ih]

/-- `packS` always produces exactly `w` bytes. -/
theorem packS_length (w : Nat) (bs : List Nat) : (packS w bs).length = w := by
  simp [packS]; omega

/-- `beVal` of a snoc. -/
theorem beVal_append (xs : List Nat) (b : Nat) : beVal (xs ++ [b]) = beVal xs * 256 + b := by
  simp [beVal, List.foldl_append]

/-- `beVal` inverts `packBE` on in-range values. -/
theorem beVal_packBE (w : Nat) : ∀ n, n < 256 ^ w → beVal (packBE w n) = n := by
  induction w with
  | zero => intro n h; interval_cases n; simp [packBE, beVal]
  | succ w ih =>
    intro n h
    have hdiv : n / 256 < 256 ^ w := by
      rw [Nat.div_lt_iff_lt_mul (by norm_num)]
      calc n < 256 ^ (w + 1) := h
        _ = 256 ^ w * 256 := by ring
    simp [packBE, beVal_append, ih (n / 256) hdiv]
    omega

/-- A successful `encode` yields 11 header bytes plus the payload. -/
theorem encode_length (p : CrispPacket) (bs : List Nat) (h : encode p = .ok bs) :
    bs.length = 11 + p.payload.length := by
  simp only [encode, packU, bind, Except.bind] at h
  split_ifs at h
  · simp only [Except.ok.injEq] at h
    subst h
    simp [packBE_length, packS_length]
    omega

/-- A Python slice with two negative (from-the-end) indices can never be
longer than the index span it asks for. -/
theorem pySlice_length_le (l : List Nat) (a b : Int) (ha : a < 0) (hb : b < 0) :
    (pySlice l a b).length ≤ (b - a).toNat := by
  have h2 : normIdx l.length b - normIdx l.length a ≤ (b - a).toNat := by
    unfold normIdx
    split_ifs
    all_goals omega
  calc (pySlice l a b).length
      = min (normIdx l.length b - normIdx l.length a) (l.length - normIdx l.length a) := by
        simp [pySlice, List.length_take, List.length_drop]
    _ ≤ normIdx l.length b - normIdx l.length a := Nat.min_le_left _ _
    _ ≤ (b - a).toNat := h2

/-- If the verifier rejects every element of the zipped signature list, the
verified count stays zero. -/
theorem foldl_verify_zero {κ : Type} (verifyFn : κ → List Nat → List Nat → Bool)
    (payload : List Nat) (l : List (List Nat × κ))
    (h : ∀ x ∈ l, verifyFn x.2 x.1 payload = false) :
    l.foldl (fun n sp => if verifyFn sp.2 sp.1 payload then n + 1 else n) 0 = 0 := by
  induction l with
  | nil => rfl
  | cons x xs ih =>
    have hx := h x (List.mem_cons_self x xs)
    simp only [List.foldl_cons, hx, Bool.false_eq_true, if_false]
    exact ih (fun y hy => h y (List.mem_cons_of_mem x hy))

/-- Core of C2: when no candidate signature of at most 32 bytes can verify
(the ECDSA reality: a P-256 DER signature is at least ~70 bytes, so the
32-byte truncations `signature[:32]` sliced off the payload tail never
verify), `verify_signature` counts zero successes and, with any positive
quorum threshold, returns false for every packet. -/
theorem verify_signature_false {κ : Type} (st : SKCManager)
    (verifyFn : κ → List Nat → List Nat → Bool) (packet : CrispPacket) (keys : List κ)
    (hthr : 1 ≤ st.quorum_threshold) (h2 : 2 ≤ packet.payload.length)
    (hver : ∀ (pk : κ) (sig msg : List Nat), sig.length ≤ 32 → verifyFn pk sig msg = false) :
    verify_signature st verifyFn packet keys = .ok false := by
  unfold verify_signature
  rw [if_neg (by omega)]
  dsimp only
  rw [foldl_verify_zero]
  · have h0 : ¬ (st.quorum_threshold ≤ 0) := by omega
    simp [h0]
  · intro x hx
    have hx1 := (List.of_mem_zip hx).1
    obtain ⟨i, _, hi⟩ := List.mem_map.1 hx1
    refine hver _ _ _ ?_
    rw [← hi]
    have hnn : (0 : Int) ≤ (i : Int) := Int.natCast_nonneg i
    have hle := pySlice_length_le packet.payload (-2 - (i : Int) * 32 - 32) (-2 - (i : Int) * 32)
      (by omega) (by omega)
    calc (pySlice packet.payload (-2 - (i : Int) * 32 - 32) (-2 - (i : Int) * 32)).length
        ≤ ((-2 - (i : Int) * 32) - (-2 - (i : Int) * 32 - 32)).toNat := hle
      _ = 32 := by omega

/-- `encode` succeeds exactly when the header fields fit their wire widths,
and then produces the 11-byte header followed by the payload. -/
theorem encode_ok (p : CrispPacket) (h1 : p.type_id < 256)
    (h2 : p.payload.length + 12 < 65536) (h3 : p.sequence < 4294967296) :
    encode p = .ok (packBE 1 p.type_id ++ packBE 2 (p.payload.length + 12)
      ++ packBE 4 p.sequence ++ packS 4 p.checksum ++ p.payload) := by
  simp only [encode, packU, bind, Except.bind]
  split_ifs with a b c
  · rfl
  all_goals exfalso; norm_num at *; omega

/-- `create_error_response` succeeds on in-range fields, producing the
type-0xE0 packet over `!QBHH`-packed fields plus the message bytes. -/
theorem create_error_response_ok (now : ℚ) (corr orig code : Nat) (msg : String)
    (h1 : corr < 18446744073709551616) (h2 : orig < 256) (h3 : code < 65536)
    (h4 : (strBytes msg).length < 65536) :
    create_error_response now corr orig code msg
      = .ok (mkPacket now 0xE0 (packBE 8 corr ++ packBE 1 orig ++ packBE 2 code
          ++ packBE 2 (strBytes msg).length ++ strBytes msg)) := by
  simp only [create_error_response, packU, bind, Except.bind]
  split_ifs with a b c d
  · rfl
  all_goals exfalso; norm_num at *; omega

/-- `resolve_deadlock` only touches `storage`: the vector clock, node id and
config of the resulting state are unchanged. -/
theorem resolve_deadlock_state (st : SKCManager) (p : CrispPacket) (now : ℚ) :
    (resolve_deadlock st p now).1.vector_clock = st.vector_clock
    ∧ (resolve_deadlock st p now).1.node_id = st.node_id
    ∧ (resolve_deadlock st p now).1.config = st.config := by
  unfold resolve_deadlock
  repeat' split
  all_goals exact ⟨rfl, rfl, rfl⟩

/-- `check_conflict` only touches `storage` (through `resolve_deadlock`). -/
theorem check_conflict_state (st : SKCManager) (p : CrispPacket) (now : ℚ) :
    (check_conflict st p now).1.vector_clock = st.vector_clock
    ∧ (check_conflict st p now).1.node_id = st.node_id
    ∧ (check_conflict st p now).1.config = st.config := by
  unfold check_conflict
  dsimp only
  repeat' split
  all_goals first
    | exact ⟨rfl, rfl, rfl⟩
    | exact resolve_deadlock_state st p now

/-- Folding `storeStep` over an error accumulator stays an error. -/
theorem storeStep_fold_error (packet : CrispPacket) (ver : Nat) (l : List String) (e : String) :
    l.foldl (storeStep packet ver) (.error e) = .error e := by
  induction l with
  | nil => rfl
  | cons x xs ih => simpa [storeStep] using ih

/-- A successful `storeStep` fold only adds storage entries: vector clock,
node id and config are those of the initial state. -/
theorem storeStep_fold_state (packet : CrispPacket) (ver : Nat) : ∀ (l : List String)
    (s s' : SKCManager), l.foldl (storeStep packet ver) (Except.ok s) = Except.ok s' →
    s'.vector_clock = s.vector_clock ∧ s'.node_id = s.node_id ∧ s'.config = s.config := by
  intro l
  induction l with
  | nil =>
    intro s s' h
    injection h with h
    subst h
    exact ⟨rfl, rfl, rfl⟩
  | cons x xs ih =>
    intro s s' h
    simp only [List.foldl_cons] at h
    cases hbs : encode packet with
    | error e =>
      have hss : storeStep packet ver (Except.ok s) x = Except.error e := by
        simp [storeStep, hbs, bind, Except.bind]
      rw [hss, storeStep_fold_error] at h
      simp at h
    | ok bs =>
      have hss : storeStep packet ver (Except.ok s) x
          = Except.ok { s with
              storage := dictSet s.storage ("skc_sync:" ++ x ++ ":" ++ toString ver)
                           (.bytes bs) } := by
        simp [storeStep, hbs, bind, Except.bind]
      rw [hss] at h
      have hrec := ih _ s' h
      exact ⟨hrec.1, hrec.2.1, hrec.2.2⟩

/-- `gossip_finish` preserves vector clock, node id and config whenever the
stored accumulator does. -/
theorem gossip_finish_state (st : SKCManager) (packet : CrispPacket) (now : ℚ)
    (stored : Except String SKCManager)
    (h : ∀ s', stored = .ok s' → s'.vector_clock = st.vector_clock
          ∧ s'.node_id = st.node_id ∧ s'.config = st.config) :
    (gossip_finish st packet now stored).1.vector_clock = st.vector_clock
    ∧ (gossip_finish st packet now stored).1.node_id = st.node_id
    ∧ (gossip_finish st packet now stored).1.config = st.config := by
  cases stored with
  | error e => exact ⟨rfl, rfl, rfl⟩
  | ok s' =>
    have hs := h s' rfl
    have hcc := check_conflict_state s' packet now
    unfold gossip_finish
    dsimp only
    rcases hpair : check_conflict s' packet now with ⟨st'', r⟩
    rw [hpair] at hcc
    dsimp only at hcc
    have h1 : st''.vector_clock = st.vector_clock := by rw [hcc.1, hs.1]
    have h2 : st''.node_id = st.node_id := by rw [hcc.2.1, hs.2.1]
    have h3 : st''.config = st.config := by rw [hcc.2.2, hs.2.2]
    cases r with
    | error e => exact ⟨h1, h2, h3⟩
    | ok o =>
      cases o with
      | none => exact ⟨h1, h2, h3⟩
      | some r => exact ⟨h1, h2, h3⟩

/-- `gossip_sync` preserves vector clock, node id and config. -/
theorem gossip_sync_state (st : SKCManager) (packet : CrispPacket)
    (cl : Option (List String)) (now : ℚ) :
    (gossip_sync st packet cl now).1.vector_clock = st.vector_clock
    ∧ (gossip_sync st packet cl now).1.node_id = st.node_id
    ∧ (gossip_sync st packet cl now).1.config = st.config := by
  unfold gossip_sync
  dsimp only
  split
  · exact ⟨rfl, rfl, rfl⟩
  · exact gossip_finish_state st packet now _
      (fun s' hs' => storeStep_fold_state packet st.skc_version _ st s' hs')

/-- `encode_vector_clock` leaves a short (at most 10 entries) clock
untrimmed: the state comes back unchanged. -/
theorem encode_vector_clock_short (st : SKCManager)
    (hlen : ¬ st.vector_clock.length > 10) : (encode_vector_clock st).1 = st := by
  unfold encode_vector_clock trim_vector_clock
  split
  · dsimp only
    rw [if_neg (by intro hc; exact hlen hc.2)]
  · rfl

/-- `sync_finish` preserves the vector clock, node id and config of a state
whose clock has at most 10 entries (so that the trim is a no-op). -/
theorem sync_finish_state (st : SKCManager) (sigOf : List Nat → List Nat)
    (prio a b : Nat) (now : ℚ) (hlen : ¬ st.vector_clock.length > 10) :
    (sync_finish st sigOf prio a b now).1.vector_clock = st.vector_clock
    ∧ (sync_finish st sigOf prio a b now).1.node_id = st.node_id
    ∧ (sync_finish st sigOf prio a b now).1.config = st.config := by
  have henc1 := encode_vector_clock_short st hlen
  unfold sync_finish
  rcases hp : encode_vector_clock st with ⟨st1, r⟩
  have hst1 : st1 = st := by rw [← henc1, hp]
  subst hst1
  cases r with
  | error e => exact ⟨rfl, rfl, rfl⟩
  | ok cb =>
    dsimp only
    split
    · exact ⟨rfl, rfl, rfl⟩
    · exact gossip_sync_state _ _ _ _

/-- When vector clocks are enabled and the clock holds exactly the own entry
with counter `k`, one `sync_skc` call leaves the clock at exactly the own
entry with counter `k + 1` (the increment happens first; every later step of
the call — including the trim inside `encode_vector_clock`, which is a no-op
on a single entry, and `gossip_sync` — leaves the clock, node id and config
untouched, whether or not the call ends in a propagating struct.error). -/
theorem sync_skc_state (st : SKCManager) (sigOf : List Nat → List Nat)
    (a b : Nat) (e : List Nat) (pr : Option Nat) (now : ℚ) (k : Nat)
    (hvc : st.config.use_vector_clocks = true) (h : st.vector_clock = [(st.node_id, k)]) :
    (sync_skc st sigOf a b e pr now).1.vector_clock = [(st.node_id, k + 1)]
    ∧ (sync_skc st sigOf a b e pr now).1.node_id = st.node_id
    ∧ (sync_skc st sigOf a b e pr now).1.config = st.config := by
  have hdg : dget [(st.node_id, k)] st.node_id = some k := by simp [dget]
  have hds : dictSet [(st.node_id, k)] st.node_id (k + 1) = [(st.node_id, k + 1)] := by
    simp [dictSet]
  unfold sync_skc
  rw [if_pos hvc, h, hdg]
  dsimp only [Option.getD_some]
  rw [hds]
  split
  all_goals split
  all_goals apply sync_finish_state
  all_goals simp

/-- Folding `sync_skc` calls from a state whose clock is exactly the own
entry keeps that shape, adding one tick per call. -/
theorem syncStep_fold (sigOf : List Nat → List Nat) (calls : List SyncCall) :
    ∀ (st : SKCManager) (k : Nat), st.config.use_vector_clocks = true →
    st.vector_clock = [(st.node_id, k)] →
    (calls.foldl (syncStep sigOf) st).vector_clock = [(st.node_id, k + calls.length)]
    ∧ (calls.foldl (syncStep sigOf) st).node_id = st.node_id
    ∧ (calls.foldl (syncStep sigOf) st).config = st.config := by
  induction calls with
  | nil =>
    intro st k hc hv
    simpa using hv
  | cons c cs ih =>
    intro st k hc hv
    simp only [List.foldl_cons, List.length_cons, syncStep]
    have hstep := sync_skc_state st sigOf c.id_range_start c.id_range_end c.entries
      c.priority c.now k hc hv
    have hvc' : (syncStep sigOf st c).vector_clock = [((syncStep sigOf st c).node_id, k + 1)] := by
      simp only [syncStep]
      rw [hstep.2.1]
      exact hstep.1
    have hrec := ih (syncStep sigOf st c) (k + 1) (by simp only [syncStep]; rw [hstep.2.2]; exact hc)
      hvc'
    simp only [syncStep] at hrec
    refine ⟨?_, ?_, ?_⟩
    · rw [hrec.1, hstep.2.1]
      have : k + 1 + cs.length = k + (cs.length + 1) := by omega
      rw [this]
    · rw [hrec.2.1, hstep.2.1]
    · rw [hrec.2.2, hstep.2.2]

/-! ### Claim theorems -/

/-- C9: across every sequence of local sync operations from a fresh manager
with vector clocks enabled — including calls that end in a propagating
struct.error, whose clock mutation persists — the vector clock is exactly the
local node's own entry ticking once per call: it holds `[(node, #calls)]`
after the whole sequence, each individual call maps the own counter from `v`
to `v + 1`, the state `encode_vector_clock` serializes always carries at most
10 entries (trimmed, when over 10, to the stable-descending-sorted 10
highest counters, i.e. dropping the lowest), and on the reachable states the
encoded bytes are the count 1 followed by the single own entry. -/
theorem c9_vector_clock_invariant (nodeId : String) (cfg : CrispConfig)
    (sigOf : List Nat → List Nat) (ops : List SyncCall)
    (hvc : cfg.use_vector_clocks = true) :
    ((ops.foldl (syncStep sigOf) (initSKC nodeId cfg)).vector_clock = [(nodeId, ops.length)])
    ∧ (∀ pre c suf, ops = pre ++ c :: suf →
        dget (syncStep sigOf (pre.foldl (syncStep sigOf) (initSKC nodeId cfg)) c).vector_clock
            nodeId
          = some ((dget ((pre.foldl (syncStep sigOf) (initSKC nodeId cfg)).vector_clock)
                nodeId).getD 0 + 1))
    ∧ (∀ s : SKCManager, s.config.use_vector_clocks = true →
        (encode_vector_clock s).1.vector_clock.length ≤ 10)
    ∧ (∀ s : SKCManager, s.config.use_vector_clocks = true → s.vector_clock.length > 10 →
        (encode_vector_clock s).1.vector_clock
          = (sortDesc (fun q => q.2) s.vector_clock).take 10)
    ∧ (ops.length < 4294967296 →
        (encode_vector_clock (ops.foldl (syncStep sigOf) (initSKC nodeId cfg))).2
          = .ok (packBE 4 1 ++ (packS 32 (strBytes nodeId) ++ packBE 4 ops.length))) := by
  have hinit_cfg : (initSKC nodeId cfg).config.use_vector_clocks = true := hvc
  have hinit_vc : (initSKC nodeId cfg).vector_clock = [((initSKC nodeId cfg).node_id, 0)] := by
    simp [initSKC, hvc]
  have hfold := fun (l : List SyncCall) =>
    syncStep_fold sigOf l (initSKC nodeId cfg) 0 hinit_cfg hinit_vc
  have hnode : (initSKC nodeId cfg).node_id = nodeId := rfl
  refine ⟨?_, ?_, ?_, ?_, ?_⟩
  · have := (hfold ops).1
    rw [hnode] at this
    simpa using this
  · intro pre c suf _
    have hpre := hfold pre
    rw [hnode] at hpre
    have hcfg' : (pre.foldl (syncStep sigOf) (initSKC nodeId cfg)).config.use_vector_clocks
        = true := by rw [hpre.2.2]; exact hvc
    have hvc' : (pre.foldl (syncStep sigOf) (initSKC nodeId cfg)).vector_clock
        = [((pre.foldl (syncStep sigOf) (initSKC nodeId cfg)).node_id, pre.length)] := by
      rw [hpre.2.1]
      simpa using hpre.1
    have hstep := sync_skc_state (pre.foldl (syncStep sigOf) (initSKC nodeId cfg)) sigOf
      c.id_range_start c.id_range_end c.entries c.priority c.now pre.length hcfg' hvc'
    have hl : (syncStep sigOf (pre.foldl (syncStep sigOf) (initSKC nodeId cfg)) c).vector_clock
        = [(nodeId, pre.length + 1)] := by
      simp only [syncStep]
      rw [hstep.1, hpre.2.1]
    rw [hl]
    have hr : (pre.foldl (syncStep sigOf) (initSKC nodeId cfg)).vector_clock
        = [(nodeId, pre.length)] := by simpa using hpre.1
    rw [hr]
    simp [dget]
  · intro s hs
    unfold encode_vector_clock trim_vector_clock
    rw [if_pos hs]
    split_ifs with hgt
    · simp only [List.length_take]
      omega
    · dsimp only
      rw [not_and_or] at hgt
      rcases hgt with hgt | hgt
      · exact absurd hs hgt
      · omega
  · intro s hs hlen
    unfold encode_vector_clock trim_vector_clock
    rw [if_pos hs, if_pos ⟨hs, hlen⟩]
  · intro hn
    have hfin := hfold ops
    rw [hnode] at hfin
    have hfin_vc : (ops.foldl (syncStep sigOf) (initSKC nodeId cfg)).vector_clock
        = [(nodeId, ops.length)] := by simpa using hfin.1
    have hfin_cfg : (ops.foldl (syncStep sigOf) (initSKC nodeId cfg)).config.use_vector_clocks
        = true := by rw [hfin.2.2]; exact hvc
    unfold encode_vector_clock trim_vector_clock
    rw [if_pos hfin_cfg]
    dsimp only
    rw [if_neg (by rw [hfin_vc]; simp)]
    rw [hfin_vc]
    simp only [List.foldl_cons, List.foldl_nil, List.length_cons, List.length_nil, packU]
    split_ifs with ha hb
    · simp [bind, Except.bind]
    all_goals (exfalso; norm_num at *; try omega)

/-- C9 witness: one concrete sync call from a fresh node1 manager leaves the
clock at `[("node1", 1)]` and the encoded clock holds the single own entry. -/
theorem c9_vector_clock_invariant_witness :
    (([c9_call].foldl (syncStep demoSig) (initSKC "node1" {})).vector_clock = [("node1", 1)])
    ∧ (encode_vector_clock ([c9_call].foldl (syncStep demoSig) (initSKC "node1" {}))).2
        = .ok (packBE 4 1 ++ (packS 32 (strBytes "node1") ++ packBE 4 1)) := by
  have h := c9_vector_clock_invariant "node1" {} demoSig [c9_call] rfl
  exact ⟨h.1, h.2.2.2.2 (by norm_num)⟩

/-- C10: `sign_packet` does not preserve the input packet's sequence number:
the signed packet it returns is built with a fresh time-derived sequence
(`int(time.time() * 1000)` at signing time, independent of the original
packet's sequence), while the type id is preserved. -/
theorem c10_sign_packet_fresh_sequence (sigOf : List Nat → List Nat) (now : ℚ)
    (p : CrispPacket) :
    (sign_packet sigOf now p).sequence = msOf now ∧
    (sign_packet sigOf now p).type_id = p.type_id := by
  exact ⟨rfl, rfl⟩

/-- C7: contrary to the claim, `sign_packet` is not count-incrementing
stacking.  It does preserve the whole previous payload (hence all prior
signatures) as a prefix, appends a 32-byte truncated signature, and recomputes
the checksum over the extended payload — but the two-byte count field it
writes is the constant 1 (bytes `[0, 1]`), placed before the new signature,
never incremented to k+1: signing an already-signed packet yields
`base ++ [0,1] ++ sig1 ++ [0,1] ++ sig2`, whose trailing count field is not 2. -/
theorem c7_sign_packet_constant_count (sigOf : List Nat → List Nat) (now1 now2 : ℚ)
    (p : CrispPacket) :
    (sign_packet sigOf now1 p).payload
        = p.payload ++ packBE 2 1 ++ (sigOf p.payload).take 32
    ∧ (sign_packet sigOf now2 (sign_packet sigOf now1 p)).payload
        = (p.payload ++ packBE 2 1 ++ (sigOf p.payload).take 32) ++ packBE 2 1
            ++ (sigOf (p.payload ++ packBE 2 1 ++ (sigOf p.payload).take 32)).take 32
    ∧ packBE 2 1 = [0, 1]
    ∧ (sign_packet sigOf now2 (sign_packet sigOf now1 p)).checksum
        = calculate_checksum 1 ((sign_packet sigOf now2 (sign_packet sigOf now1 p)).payload) := by
  exact ⟨rfl, rfl, rfl, rfl⟩

/-- C1: contrary to the claim, with no votes cast the conflict resolver does
NOT return a VersionConflict (0x0007) error response: `collect_votes` returns
the two contending packets in stable descending order of their all-zero
tallies, so `votes[0]` — the incoming packet — is selected as the winner (the
no-votes error branch is unreachable, and would raise a NameError on the
undefined `incoming_packet` if it were reached). -/
theorem c1_no_votes_selects_incoming :
    resolve_semantic_conflict demoManager c1_incoming c1_stored = Except.ok c1_incoming
    ∧ c1_incoming.type_id = 0x60 ∧ c1_incoming.type_id ≠ 0xE0
    ∧ (∀ node, dget demoManager.storage ("vote:" ++ node) = none) := by
  refine ⟨by decide, by decide, by decide, fun node => rfl⟩

/-- C4: contrary to the claim, an exception does propagate out of the public
orchestrator operation `sync_skc`: with the default time-derived sequence at
any realistic wall-clock time (here 2025-10, `int(time.time()*1000)` =
1760000000000 ≥ 2^32), `packet.encode()` inside `gossip_sync` raises
struct.error on the `!I` sequence field, so `sync_skc` neither returns a
packet nor an error packet — the embedding returns the propagated error. -/
theorem c4_sync_skc_propagates_struct_error :
    (sync_skc demoManager demoSig 100 200 [0x45] none 1760000000).2
      = Except.error "struct.error: argument out of range"
    ∧ msOf 1760000000 = 1760000000000 := by
  exact ⟨by decide, by decide⟩

/-- C5: the first half of the claim holds — `decode` fails (with the
"Packet too short" MalformedPacket error) on every input of fewer than 12
bytes — but the second half fails: flipping a payload byte of a validly
encoded packet makes `decode` fail with the struct unpack error (the 11-byte
`!BHI4s` header format never matches the 12-byte slice), not with
ChecksumMismatch; indeed no input at all can produce the
"Checksum mismatch" error. -/
theorem c5_short_and_flip :
    (∀ (data : List Nat) (now : ℚ), data.length < 12 →
        decode data now = Except.error "Packet too short")
    ∧ c5_encoded.length = 13
    ∧ decode c5_flipped 0 = Except.error "unpack requires a buffer of 11 bytes"
    ∧ (∀ (data : List Nat) (now : ℚ), decode data now ≠ Except.error "Checksum mismatch") := by
  refine ⟨fun data now h => by simp [decode, h], by decide, by decide, fun data now => ?_⟩
  unfold decode
  by_cases h12 : data.length < 12
  · simp [h12]
  · have ht : (data.take 12).length = 12 := by
      simp only [List.length_take]
      omega
    simp [h12, ht]

/-- C5 witness: the hypotheses of `c5_short_and_flip`'s quantified parts
discharged at concrete inputs. -/
theorem c5_short_and_flip_witness :
    decode [] 0 = Except.error "Packet too short"
    ∧ decode c5_flipped 0 = Except.error "unpack requires a buffer of 11 bytes"
    ∧ decode c5_encoded 0 ≠ Except.error "Checksum mismatch" := by
  exact ⟨c5_short_and_flip.1 [] 0 (by decide), c5_short_and_flip.2.2.1,
    c5_short_and_flip.2.2.2 c5_encoded 0⟩

/-- C3: contrary to the claim, decoding the encoding of a packet never
succeeds: a successful `encode` emits an 11-byte header (`!BHI4s` has size
11, not `HEADER_SIZE = 12`) plus the payload, and `decode` either rejects
the buffer as shorter than 12 bytes (empty payload) or calls
`struct.unpack("!BHI4s", data[:12])`, which raises because the 12-byte slice
does not match the 11-byte format. -/
theorem c3_decode_encode_always_fails (p : CrispPacket) (bs : List Nat) (now : ℚ)
    (h : encode p = .ok bs) : isErr (decode bs now) = true := by
  have hlen := encode_length p bs h
  unfold decode
  by_cases h12 : bs.length < 12
  · simp [h12, isErr]
  · have ht : (bs.take 12).length = 12 := by
      simp only [List.length_take]
      omega
    simp [h12, ht, isErr]

/-- C3 witness: `encode` succeeds on the concrete packet `c3_packet` and
decoding the result fails. -/
theorem c3_witness :
    encode c3_packet = .ok ((encode c3_packet).toOption.getD [])
    ∧ isErr (decode ((encode c3_packet).toOption.getD []) 0) = true := by
  exact ⟨by decide, c3_decode_encode_always_fails c3_packet _ 0 (by decide)⟩

/-- C2: contrary to the claim, a once-signed sync packet does NOT verify true
against the signer's public key with threshold 1: `sign_packet` appends
`(count, signature[:32])` with the count written BEFORE the 32-byte truncated
signature, while `verify_signature` reads the count from the LAST two payload
bytes and slices 32-byte candidates inward from the tail; moreover every
candidate it slices is at most 32 bytes, and a 32-byte string can never be a
valid DER-encoded P-256 ECDSA signature (those are ≈70 bytes), which is the
`hver` hypothesis.  Hence the verified count is always 0 and the function
returns false for every positive threshold — in particular for the claim's
threshold-1 scenario (the repository's own tests, which expect true, fail). -/
theorem c2_signed_packet_fails_verification {κ : Type} (st : SKCManager)
    (verifyFn : κ → List Nat → List Nat → Bool) (sigOf : List Nat → List Nat) (now : ℚ)
    (p : CrispPacket) (keys : List κ)
    (hthr : 1 ≤ st.quorum_threshold)
    (hver : ∀ (pk : κ) (sig msg : List Nat), sig.length ≤ 32 → verifyFn pk sig msg = false) :
    verify_signature st verifyFn (sign_packet sigOf now p) keys = .ok false := by
  refine verify_signature_false st verifyFn _ keys hthr ?_ hver
  simp [sign_packet, mkPacket, packBE_length]
  omega

/-- C2 witness: the threshold-1 scenario (quorums disabled) at a concrete
manager, signature model and packet. -/
theorem c2_witness :
    1 ≤ (initSKC "node1" { use_quorums := false }).quorum_threshold
    ∧ verify_signature (initSKC "node1" { use_quorums := false })
        (fun (_ : Nat) _ _ => false)
        (sign_packet demoSig 3 (mkPacket 0 0x60 [1, 2, 3] (some 4))) [0] = .ok false := by
  exact ⟨by decide,
    c2_signed_packet_fails_verification (initSKC "node1" { use_quorums := false })
      (fun (_ : Nat) _ _ => false) demoSig 3 (mkPacket 0 0x60 [1, 2, 3] (some 4)) [0]
      (by decide) (fun pk sig msg h => rfl)⟩

/-- C6: the deadlock boundary of `resolve_deadlock`.  A packet whose age is
exactly the 5-second threshold is non-expired and accepted silently (state
unchanged, no response); a strictly older packet (with wire-valid header
fields, so that its mandatory re-encoding succeeds) is recorded under
`deadlock:{sequence}` in storage and answered with the DeadlockTimeout
(0x000B = 11) type-0xE0 error response whose correlation-id field is the
packet's sequence. -/
theorem c6_deadlock_boundary (st : SKCManager) (p : CrispPacket) (now : ℚ) :
    (now - p.timestamp = 5 → resolve_deadlock st p now = (st, Except.ok none))
    ∧ (now - p.timestamp > 5 → p.type_id < 256 → p.payload.length + 12 < 65536 →
        p.sequence < 4294967296 →
        resolve_deadlock st p now =
          ({ st with
             storage := dictSet st.storage ("deadlock:" ++ toString p.sequence)
               (.bytes (packBE 1 p.type_id ++ packBE 2 (p.payload.length + 12)
                 ++ packBE 4 p.sequence ++ packS 4 p.checksum ++ p.payload)) },
           Except.ok (some (mkPacket now 0xE0
             (packBE 8 p.sequence ++ packBE 1 p.type_id ++ packBE 2 11 ++ packBE 2 16
               ++ strBytes "Deadlock timeout"))))
        ∧ beVal (packBE 8 p.sequence) = p.sequence) := by
  constructor
  · intro h
    have hexp : is_expired p now = false := by
      simp only [is_expired, decide_eq_false_iff_not]
      rw [h]
      norm_num
    simp [resolve_deadlock, hexp]
  · intro h h1 h2 h3
    have hexp : is_expired p now = true := by
      simp only [is_expired, decide_eq_true_eq]
      exact h
    have henc := encode_ok p h1 h2 h3
    have hcer := create_error_response_ok now p.sequence p.type_id 11 "Deadlock timeout"
      (by omega) h1 (by norm_num) (by decide)
    refine ⟨?_, beVal_packBE 8 p.sequence (by norm_num; omega)⟩
    simp only [resolve_deadlock, hexp, if_true, henc, hcer]
    rfl

/-- C6 witness: both sides of the boundary at a concrete packet (timestamp 0,
sequence 9, payload [1]), resolved at times 5 and 6. -/
theorem c6_deadlock_boundary_witness :
    (resolve_deadlock demoManager (mkPacket 0 0x60 [1] (some 9)) 5).2 = Except.ok none
    ∧ (resolve_deadlock demoManager (mkPacket 0 0x60 [1] (some 9)) 6).2
        = Except.ok (some (mkPacket 6 0xE0
            (packBE 8 (mkPacket 0 0x60 [1] (some 9)).sequence
              ++ packBE 1 (mkPacket 0 0x60 [1] (some 9)).type_id ++ packBE 2 11
              ++ packBE 2 16 ++ strBytes "Deadlock timeout"))) := by
  have h1 := (c6_deadlock_boundary demoManager (mkPacket 0 0x60 [1] (some 9)) 5).1
    (by norm_num [mkPacket])
  have h2 := (c6_deadlock_boundary demoManager (mkPacket 0 0x60 [1] (some 9)) 6).2
    (by norm_num [mkPacket]) (by decide) (by decide) (by decide)
  exact ⟨by rw [h1], by rw [h2.1]⟩

/-- C8 counterexample: on the concrete three-leaf tree over entries
[0], [1], [2] (leaves `l_i = sha256(entry_i)`), `get_root` equals neither the
promote-unhashed root `H(H(l0||l1) || l2)` nor the duplicate-last root
`H(H(l0||l1) || H(l2||l2))` — the code implements a third policy. -/
theorem c8_neither_policy :
    get_root c8_tree
        ≠ sha256 (sha256 (sha256 [0] ++ sha256 [1]) ++ sha256 [2])
    ∧ get_root c8_tree
        ≠ sha256 (sha256 (sha256 [0] ++ sha256 [1]) ++ sha256 (sha256 [2] ++ sha256 [2])) := by
  exact ⟨by decide, by decide⟩

/-- C8 (amended): at a level with an odd node count, `get_root` reduces the
trailing odd node by hashing it alone (`sha256(last)` — neither duplicating
it nor promoting it unhashed); in particular for every 3-leaf tree the root
is `H(H(l0||l1) || H(l2))` where `l_i = sha256(entry_i)`. -/
theorem c8_odd_node_hashed_alone (e0 e1 e2 : List Nat) :
    get_root (add_leaf (add_leaf (add_leaf ⟨[]⟩ e0) e1) e2)
      = sha256 (sha256 (sha256 e0 ++ sha256 e1) ++ sha256 (sha256 e2)) := by
  simp [get_root, add_leaf, reduceLoop, hashPairs]

end Crisp

